import Mathlib

/-!
Verification development for the `sqlar-vault` file-storage library
(`FileStorageManager` over a single `sqlar` table).

The archive table is modelled as a list of rows (`SQLarFile`), the SQL layer
(`=` lookups, `LIKE` scans, `ORDER BY`/`LIMIT`, `count(*)`, `DELETE`) is given
an executable semantics, and each public operation of `FileStorageManager` is
translated into a pure state-passing function.  The external compression
extension (`sqlar_compress` / `sqlar_uncompress`) is kept abstract: the
operations take the two functions as parameters.
-/

namespace SqlarVault

/-- The JavaScript whitespace class: the characters matched by the regex
class `\s` and stripped by `String.prototype.trim` (ECMA WhiteSpace plus
LineTerminator). -/
def isJsWhitespace (c : Char) : Bool :=
  let n := c.toNat
  decide (9 ≤ n ∧ n ≤ 13) || n == 32 || n == 0xa0 || n == 0x1680 ||
  decide (0x2000 ≤ n ∧ n ≤ 0x200a) || n == 0x2028 || n == 0x2029 ||
  n == 0x202f || n == 0x205f || n == 0x3000 || n == 0xfeff

/-- JavaScript `String.prototype.trim`: drop leading and trailing
whitespace characters. -/
def jsTrim (s : String) : String :=
  ⟨((s.data.dropWhile isJsWhitespace).reverse.dropWhile isJsWhitespace).reverse⟩

/-- One step of the regex replacement `.replace(/\/|\s|\\/g, "_")`:
a slash, backslash or whitespace character becomes an underscore. -/
def sanitizeChar (c : Char) : Char :=
  if c == '/' || c == '\\' || isJsWhitespace c then '_' else c

/-- `FileStorageManager.sanitizePath`: drop segments whose trim is empty,
then trim each kept segment and replace `/`, whitespace and `\` by `_`. -/
def sanitizePath (filePath : List String) : List String :=
  (filePath.filter (fun dir => !(jsTrim dir == ""))).map
    (fun dir => ⟨(jsTrim dir).data.map sanitizeChar⟩)

/-- JavaScript `Array.prototype.join("/")`. -/
def joinSlash : List String → String
  | [] => ""
  | [s] => s
  | s :: rest => s ++ "/" ++ joinSlash rest

/-- `FileStorageManager.createFileNameWithPath`: the full archive key for a
directory-segment list and a file name. -/
def createFileNameWithPath (filePath : List String) (fileName : String) : String :=
  let sanitizedPath := joinSlash (sanitizePath filePath)
  if sanitizedPath == "" then "/" ++ fileName
  else "/" ++ sanitizedPath ++ "/" ++ fileName

/-- All suffixes of a character list, longest first. -/
def suffixes : List Char → List (List Char)
  | [] => [[]]
  | c :: cs => (c :: cs) :: suffixes cs

/-- SQL `LIKE` matching on character lists: `%` matches any run of
characters, `_` matches exactly one character, anything else matches
itself. -/
def likeAux : List Char → List Char → Bool
  | [], ts => ts.isEmpty
  | '%' :: ps, ts => (suffixes ts).any (fun t => likeAux ps t)
  | '_' :: _, [] => false
  | '_' :: ps, _ :: ts => likeAux ps ts
  | _ :: _, [] => false
  | p :: ps, t :: ts => p == t && likeAux ps ts

/-- SQL `name LIKE pattern` on strings. -/
def likeMatch (pattern text : String) : Bool :=
  likeAux pattern.data text.data

/-- `leadsWith p s` holds when character list `p` is an initial run of `s`
(used to phrase "key lies under directory `d`"). -/
def leadsWith : List Char → List Char → Bool
  | [], _ => true
  | _ :: _, [] => false
  | p :: ps, c :: cs => p == c && leadsWith ps cs

/-- Zero-pad a number to two digits. -/
def pad2 (n : Nat) : String :=
  if n < 10 then "0" ++ toString n else toString n

/-- Zero-pad a number to four digits. -/
def pad4 (n : Nat) : String :=
  if n < 10 then "000" ++ toString n
  else if n < 100 then "00" ++ toString n
  else if n < 1000 then "0" ++ toString n
  else toString n

/-- Proleptic Gregorian civil date (year, month, day) from a count of days
since 1970-01-01. -/
def civilFromDays (z0 : Int) : Int × Nat × Nat :=
  let z := z0 + 719468
  let era := z.fdiv 146097
  let doe := (z - era * 146097).toNat
  let yoe := (doe - doe / 1460 + doe / 36524 - doe / 146096) / 365
  let doy := doe - (365 * yoe + yoe / 4 - yoe / 100)
  let mp := (5 * doy + 2) / 153
  let d := doy - (153 * mp + 2) / 5 + 1
  let m := if mp < 10 then mp + 3 else mp - 9
  ((yoe : Int) + era * 400 + (if m ≤ 2 then 1 else 0), m, d)

/-- The SQLite builtin `datetime(t, unixepoch)`: the unix-seconds timestamp
rendered as `YYYY-MM-DD HH:MM:SS` text. -/
def sqliteDatetime (t : Int) : String :=
  let days := t.fdiv 86400
  let sod := (t - days * 86400).toNat
  let ymd := civilFromDays days
  pad4 ymd.1.toNat ++ "-" ++ pad2 ymd.2.1 ++ "-" ++ pad2 ymd.2.2 ++ " " ++
    pad2 (sod / 3600) ++ ":" ++ pad2 (sod % 3600 / 60) ++ ":" ++ pad2 (sod % 60)

/-- One row of the `sqlar` table (`name` is the primary key; `data` holds
the compressed content, `sz` the uncompressed size). -/
structure SQLarFile where
  name : String
  mode : Nat
  mtime : Int
  sz : Nat
  data : List Nat
deriving DecidableEq

/-- The table contents, one row per stored file. -/
abbrev Archive := List SQLarFile

/-- The string error discriminants this library returns (the last two occur
only in the superseded pre-pagination version of the manager). -/
inductive StorageError
  | FileAlreadyExists
  | FileNotFound
  | DirectoryAlreadyEmpty
  | NoFilesToDelete
  | InvalidDirectoryPath
deriving DecidableEq

/-- `FileStorageManager.fileExists`: `SELECT name FROM sqlar WHERE name = ?`
returns a row. -/
def fileExists (s : Archive) (filePath : String) : Bool :=
  (s.find? (fun e => e.name == filePath)).isSome

/-- The success payload of `storeFile`. -/
structure StoreOk where
  fileName : String
  fileNameWithPath : String
deriving DecidableEq

/-- `FileStorageManager.storeFile`: refuse if the key is taken, otherwise
insert the row `(key, 0o644, modifiedTime, byteLength, compress(file))`.
Returns the result and the new table contents. -/
def storeFile (compress : List Nat → List Nat) (s : Archive) (dir : List String)
    (fileName : String) (file : List Nat) (modifiedTime : Int) :
    Except StorageError StoreOk × Archive :=
  let fileNameWithPath := createFileNameWithPath dir fileName
  if fileExists s fileNameWithPath then
    (.error .FileAlreadyExists, s)
  else
    (.ok ⟨fileName, fileNameWithPath⟩,
      s ++ [⟨fileNameWithPath, 420, modifiedTime, file.length, compress file⟩])

/-- The row shape returned by `retrieveFile`: the `SELECT` renames
`datetime(mtime, unixepoch)` to `mtime` (text!) and
`sqlar_uncompress(data, sz)` to `data`. -/
structure RetrievedFile where
  name : String
  mode : Nat
  mtime : String
  data : List Nat
  sz : Nat
deriving DecidableEq

/-- `FileStorageManager.retrieveFile`: point lookup of the composed key. -/
def retrieveFile (uncompress : List Nat → Nat → List Nat) (s : Archive)
    (dir : List String) (fileName : String) : Except StorageError RetrievedFile :=
  let fileNameWithPath := createFileNameWithPath dir fileName
  match s.find? (fun e => e.name == fileNameWithPath) with
  | none => .error .FileNotFound
  | some e => .ok ⟨e.name, e.mode, sqliteDatetime e.mtime, uncompress e.data e.sz, e.sz⟩

/-- `FileStorageManager.deleteAllFiles`: `DELETE FROM sqlar` and report
success unconditionally. -/
def deleteAllFiles (s : Archive) : Except StorageError Unit × Archive :=
  let _ := s
  (.ok (), [])

/-- `FileStorageManager.deleteDirectoryFiles`: reject an empty sanitized
path, otherwise `DELETE FROM sqlar WHERE name LIKE /dir/%` and report
`DirectoryAlreadyEmpty` when no row was deleted. -/
def deleteDirectoryFiles (s : Archive) (dir : List String) :
    Except StorageError Unit × Archive :=
  let sanitizedPath := joinSlash (sanitizePath dir)
  if sanitizedPath == "" then
    (.error .DirectoryAlreadyEmpty, s)
  else
    let directoryToDelete := "/" ++ sanitizedPath ++ "/%"
    let changes := (s.filter (fun e => likeMatch directoryToDelete e.name)).length
    let s' := s.filter (fun e => !likeMatch directoryToDelete e.name)
    if changes == 0 then (.error .DirectoryAlreadyEmpty, s')
    else (.ok (), s')

/-- The ORDER BY column accepted by listFiles / searchFiles. -/
inductive OrderBy
  | name
  | mtime
  | sz
deriving DecidableEq

/-- The ORDER BY direction accepted by listFiles / searchFiles. -/
inductive SortDir
  | asc
  | desc
deriving DecidableEq

/-- Code-point-wise lexicographic comparison of character lists; on valid
strings this is exactly the byte-wise UTF-8 comparison of the SQLite
BINARY collation. -/
def charListLeb : List Char → List Char → Bool
  | [], _ => true
  | _ :: _, [] => false
  | a :: as, b :: bs =>
    decide (a.toNat < b.toNat) || (decide (a.toNat = b.toNat) && charListLeb as bs)

/-- BINARY-collation order on text values. -/
def strLeb (a b : String) : Bool :=
  charListLeb a.data b.data

theorem charListLeb_total : ∀ x y : List Char, charListLeb x y = true ∨ charListLeb y x = true
  | [], _ => by left; rfl
  | _ :: _, [] => by right; rfl
  | a :: as, b :: bs => by
    rcases charListLeb_total as bs with h | h <;> simp [charListLeb, h] <;> omega

theorem charListLeb_trans : ∀ x y z : List Char,
    charListLeb x y = true → charListLeb y z = true → charListLeb x z = true
  | [], _, _ => by intro _ _; rfl
  | a :: as, [], _ => by intro h; exact absurd h (by simp [charListLeb])
  | _ :: _, _ :: _, [] => by intro _ h; exact absurd h (by simp [charListLeb])
  | a :: as, b :: bs, c :: cs => by
    intro h₁ h₂
    simp only [charListLeb, Bool.or_eq_true, Bool.and_eq_true, decide_eq_true_eq] at h₁ h₂ ⊢
    rcases h₁ with h₁ | ⟨h₁e, h₁r⟩ <;> rcases h₂ with h₂ | ⟨h₂e, h₂r⟩
    · left; omega
    · left; omega
    · left; omega
    · right; exact ⟨by omega, charListLeb_trans as bs cs h₁r h₂r⟩

/-- Comparison of two rows on the selected column. -/
def keyLe : OrderBy → SQLarFile → SQLarFile → Prop
  | .name, a, b => strLeb a.name b.name = true
  | .mtime, a, b => a.mtime ≤ b.mtime
  | .sz, a, b => a.sz ≤ b.sz

instance keyLe.instDecidableRel (ob : OrderBy) : DecidableRel (keyLe ob) :=
  fun a b =>
    match ob with
    | .name => inferInstanceAs (Decidable (strLeb a.name b.name = true))
    | .mtime => inferInstanceAs (Decidable (a.mtime ≤ b.mtime))
    | .sz => inferInstanceAs (Decidable (a.sz ≤ b.sz))

/-- The row order requested by an ORDER BY column and direction. -/
def sortRel : OrderBy → SortDir → SQLarFile → SQLarFile → Prop
  | ob, .asc, a, b => keyLe ob a b
  | ob, .desc, a, b => keyLe ob b a

instance sortRel.instDecidableRel (ob : OrderBy) (od : SortDir) :
    DecidableRel (sortRel ob od) :=
  fun a b =>
    match od with
    | .asc => inferInstanceAs (Decidable (keyLe ob a b))
    | .desc => inferInstanceAs (Decidable (keyLe ob b a))

instance sortRel.instIsTotal (ob : OrderBy) (od : SortDir) :
    IsTotal SQLarFile (sortRel ob od) := by
  constructor
  intro a b
  cases od <;> cases ob <;> first
    | exact charListLeb_total _ _
    | exact le_total _ _

instance sortRel.instIsTrans (ob : OrderBy) (od : SortDir) :
    IsTrans SQLarFile (sortRel ob od) := by
  constructor
  intro a b c hab hbc
  cases od <;> cases ob <;> first
    | exact charListLeb_trans _ _ _ hab hbc
    | exact charListLeb_trans _ _ _ hbc hab
    | exact le_trans hab hbc
    | exact le_trans hbc hab

/-- The LIKE scope listFiles applies: always `/<joined>/%`, with no special
case for an empty sanitized path (so `//%` when it is empty). -/
def listScope (dir : List String) : String :=
  "/" ++ joinSlash (sanitizePath dir) ++ "/%"

/-- The LIKE scope searchFiles applies: `%` when the sanitized path is
empty, otherwise `/<joined>/%`. -/
def searchScope (dir : List String) : String :=
  let sanitizedPath := joinSlash (sanitizePath dir)
  if sanitizedPath == "" then "%" else "/" ++ sanitizedPath ++ "/%"

/-- The rows of the archive whose key falls in the listFiles scope. -/
def matchingEntries (s : Archive) (dir : List String) : List SQLarFile :=
  s.filter (fun e => likeMatch (listScope dir) e.name)

/-- Those rows in the order requested by the ORDER BY clause. -/
def sortedEntries (s : Archive) (dir : List String) (ob : OrderBy) (od : SortDir) :
    List SQLarFile :=
  List.insertionSort (sortRel ob od) (matchingEntries s dir)

/-- The row shape returned by listFiles / searchFiles: no `data` column,
and `mtime` is the `datetime(mtime, unixepoch)` text. -/
structure ListedFile where
  name : String
  mode : Nat
  mtime : String
  sz : Nat
deriving DecidableEq

/-- The projection the list / search SELECT applies to a table row. -/
def listedRow (e : SQLarFile) : ListedFile :=
  ⟨e.name, e.mode, sqliteDatetime e.mtime, e.sz⟩

/-- The OFFSET listFiles and searchFiles compute:
`pageNumber <= 1 ? 0 : (pageNumber - 1) * filesPerPage`. -/
def pageSkip (pageNumber : Int) (filesPerPage : Nat) : Nat :=
  if pageNumber ≤ 1 then 0 else (pageNumber - 1).toNat * filesPerPage

/-- The shape of a listFiles / searchFiles response. -/
structure ListResult where
  files : List ListedFile
  totalFiles : Nat
  currentPage : Int
  success : Bool
deriving DecidableEq

/-- `FileStorageManager.listFiles`: count the rows in the directory scope
and return one page of them, ordered by the requested column/direction,
with `LIMIT skip, filesPerPage`. -/
def listFiles (s : Archive) (dir : List String) (filesPerPage : Nat)
    (pageNumber : Int) (orderBy : OrderBy) (order : SortDir) : ListResult :=
  let skip := pageSkip pageNumber filesPerPage
  let total := (matchingEntries s dir).length
  let page := ((sortedEntries s dir orderBy order).drop skip).take filesPerPage
  ⟨page.map listedRow, total, pageNumber, true⟩

/-- `FileStorageManager.searchFiles`: like listFiles but over the pattern
`<scope><fileName>%`, where an empty directory resolves to scope `%`. -/
def searchFiles (s : Archive) (fileName : String) (dir : List String)
    (filesPerPage : Nat) (pageNumber : Int) (orderBy : OrderBy) (order : SortDir) :
    ListResult :=
  let skip := pageSkip pageNumber filesPerPage
  let pat := searchScope dir ++ fileName ++ "%"
  let matching := s.filter (fun e => likeMatch pat e.name)
  let sorted := List.insertionSort (sortRel orderBy order) matching
  ⟨((sorted.drop skip).take filesPerPage).map listedRow, matching.length, pageNumber, true⟩

/-- The sanitizer as the specification words it (section 4.1): walk the
segment list in order, drop a segment whose trim is empty, and otherwise
keep its trimmed form with every slash, backslash or whitespace character
replaced by an underscore.  Refinement target for `sanitizePath`. -/
def sanitizeSpecModel : List String → List String
  | [] => []
  | seg :: rest =>
    if jsTrim seg = "" then sanitizeSpecModel rest
    else (⟨(jsTrim seg).data.map sanitizeChar⟩ : String) :: sanitizeSpecModel rest

example :
    (listFiles [⟨"/a/x", 420, 5, 1, [1]⟩, ⟨"/b/y", 420, 3, 1, [1]⟩, ⟨"/a/z", 420, 4, 1, [1]⟩]
      ["a"] 20 1 .name .asc).files.map (fun r => r.name) = ["/a/x", "/a/z"] := by decide

example :
    (listFiles [⟨"/a/x", 420, 5, 1, [1]⟩, ⟨"/a/y", 420, 3, 1, [1]⟩, ⟨"/a/z", 420, 4, 1, [1]⟩]
      ["a"] 2 2 .mtime .desc).files.map (fun r => r.name) = ["/a/y"] := by decide

example :
    (searchFiles [⟨"/a/x", 420, 5, 1, [1]⟩, ⟨"/b/y", 420, 3, 1, [1]⟩] "y" [] 20 1 .name .asc).files
      = [⟨"/b/y", 420, sqliteDatetime 3, 1⟩] := by decide

example : (listFiles [⟨"/a.txt", 420, 0, 1, [1]⟩] [] 20 1 .name .asc).totalFiles = 0 := by decide

example : sqliteDatetime 0 = "1970-01-01 00:00:00" := by decide
example : sqliteDatetime 86399 = "1970-01-01 23:59:59" := by decide
example : sqliteDatetime 1000000000 = "2001-09-09 01:46:40" := by decide
example : sqliteDatetime (-1) = "1969-12-31 23:59:59" := by decide
example : sanitizePath ["root", " a b ", "", "x/y", "  "] = ["root", "a_b", "x_y"] := by decide

/-! ### Helper lemmas -/

theorem mem_suffixes_nil : ∀ l : List Char, [] ∈ suffixes l
  | [] => by simp [suffixes]
  | c :: cs => List.mem_cons.mpr (Or.inr (mem_suffixes_nil cs))

theorem likeAux_percent_nil (l : List Char) : likeAux ['%'] l = true := by
  simp only [likeAux]
  rw [List.any_eq_true]
  exact ⟨[], mem_suffixes_nil l, rfl⟩

theorem likeMatch_percent (s : String) : likeMatch "%" s = true :=
  likeAux_percent_nil s.data

/-- A key matched by the pattern `/a/%` starts with the three characters
`/a/`. -/
theorem likeMatch_under_a (n : String) (h : likeMatch "/a/%" n = true) :
    leadsWith ['/', 'a', '/'] n.data = true := by
  have h' : likeAux ['/', 'a', '/', '%'] n.data = true := h
  cases hn : n.data with
  | nil => rw [hn] at h'; exact absurd h' (by decide)
  | cons c1 r1 =>
    rw [hn] at h'
    rw [show likeAux ['/', 'a', '/', '%'] (c1 :: r1)
          = ('/' == c1 && likeAux ['a', '/', '%'] r1) from rfl,
      Bool.and_eq_true] at h'
    obtain ⟨hc1, h'⟩ := h'
    cases r1 with
    | nil => exact absurd h' (by decide)
    | cons c2 r2 =>
      rw [show likeAux ['a', '/', '%'] (c2 :: r2)
            = ('a' == c2 && likeAux ['/', '%'] r2) from rfl,
        Bool.and_eq_true] at h'
      obtain ⟨hc2, h'⟩ := h'
      cases r2 with
      | nil => exact absurd h' (by decide)
      | cons c3 r3 =>
        rw [show likeAux ['/', '%'] (c3 :: r3)
              = ('/' == c3 && likeAux ['%'] r3) from rfl,
          Bool.and_eq_true] at h'
        obtain ⟨hc3, -⟩ := h'
        obtain rfl : '/' = c1 := eq_of_beq hc1
        obtain rfl : 'a' = c2 := eq_of_beq hc2
        obtain rfl : '/' = c3 := eq_of_beq hc3
        simp [leadsWith]

/-- Sanitized segments are never the empty string. -/
theorem sanitizePath_mem_ne (l : List String) :
    ∀ seg ∈ sanitizePath l, seg ≠ "" := by
  intro seg hm heq
  unfold sanitizePath at hm
  rw [List.mem_map] at hm
  obtain ⟨dir, hdir, hseg⟩ := hm
  rw [List.mem_filter] at hdir
  have hne : (jsTrim dir == "") = false := by
    have := hdir.2
    simpa using this
  have hdata : ((jsTrim dir).data.map sanitizeChar) = [] := by
    have := congrArg String.data (hseg.trans heq)
    simpa using this
  have hnil : (jsTrim dir).data = [] := by simpa using hdata
  have : jsTrim dir = "" := by
    rw [String.ext_iff]
    simpa using hnil
  simp [this] at hne

theorem joinSlash_ne_empty :
    ∀ l : List String, l ≠ [] → (∀ s ∈ l, s ≠ "") → joinSlash l ≠ ""
  | [], h, _ => absurd rfl h
  | [s], _, hs => by simpa [joinSlash] using hs s (by simp)
  | s :: a :: rest, _, hs => by
    intro hcontra
    have h0 : joinSlash (s :: a :: rest) = s ++ "/" ++ joinSlash (a :: rest) := rfl
    rw [h0] at hcontra
    have h1 := congrArg String.length hcontra
    rw [String.length_append, String.length_append] at h1
    have h2 : ("/" : String).length = 1 := rfl
    have h3 : ("" : String).length = 0 := rfl
    rw [h2, h3] at h1
    omega

/-- The joined sanitized path is empty exactly when no segment survived
sanitization. -/
theorem sanitizedJoin_empty_iff (dir : List String) :
    joinSlash (sanitizePath dir) = "" ↔ sanitizePath dir = [] := by
  constructor
  · intro h
    by_contra hne
    exact joinSlash_ne_empty _ hne (sanitizePath_mem_ne dir) h
  · intro h
    rw [h]
    rfl

theorem filter_not_of_no_match (s : Archive) (p : SQLarFile → Bool)
    (h : (s.filter p).length = 0) : s.filter (fun e => !p e) = s := by
  rw [List.length_eq_zero, List.filter_eq_nil_iff] at h
  rw [List.filter_eq_self]
  intro a ha
  simpa using h a ha

theorem filter_not_like_of_no_match (s : Archive) (pat : String)
    (h : (s.filter (fun e => likeMatch pat e.name)).length = 0) :
    s.filter (fun e => !likeMatch pat e.name) = s := by
  rw [List.length_eq_zero, List.filter_eq_nil_iff] at h
  rw [List.filter_eq_self]
  intro a ha
  simpa using h a ha

theorem deleteDirectoryFiles_of_empty (s : Archive) (dir : List String)
    (h : sanitizePath dir = []) :
    deleteDirectoryFiles s dir = (.error .DirectoryAlreadyEmpty, s) := by
  have hj : joinSlash (sanitizePath dir) = "" := by
    rw [h]
    rfl
  simp [deleteDirectoryFiles, hj]

theorem deleteDirectoryFiles_snd (s : Archive) (dir : List String)
    (h : sanitizePath dir ≠ []) :
    (deleteDirectoryFiles s dir).2
      = s.filter (fun e => !likeMatch (listScope dir) e.name) := by
  have hj : joinSlash (sanitizePath dir) ≠ "" :=
    fun hc => h ((sanitizedJoin_empty_iff dir).1 hc)
  simp only [deleteDirectoryFiles]
  rw [if_neg (by simp [hj])]
  by_cases hn : (s.filter
      (fun e => likeMatch ("/" ++ joinSlash (sanitizePath dir) ++ "/%") e.name)).length = 0
  · rw [if_pos (by simpa using hn)]
    rfl
  · rw [if_neg (by simpa using hn)]
    rfl

theorem deleteDirectoryFiles_fst_no_match (s : Archive) (dir : List String)
    (h : sanitizePath dir ≠ [])
    (hn : (s.filter (fun e => likeMatch (listScope dir) e.name)).length = 0) :
    deleteDirectoryFiles s dir = (.error .DirectoryAlreadyEmpty, s) := by
  have hj : joinSlash (sanitizePath dir) ≠ "" :=
    fun hc => h ((sanitizedJoin_empty_iff dir).1 hc)
  have hn' : (s.filter
      (fun e => likeMatch ("/" ++ joinSlash (sanitizePath dir) ++ "/%") e.name)).length = 0 := hn
  simp only [deleteDirectoryFiles]
  rw [if_neg (by simp [hj]), if_pos (by simpa using hn'),
    filter_not_like_of_no_match s _ hn']

theorem deleteDirectoryFiles_fst_match (s : Archive) (dir : List String)
    (h : sanitizePath dir ≠ [])
    (hn : (s.filter (fun e => likeMatch (listScope dir) e.name)).length ≠ 0) :
    (deleteDirectoryFiles s dir).1 = .ok () := by
  have hj : joinSlash (sanitizePath dir) ≠ "" :=
    fun hc => h ((sanitizedJoin_empty_iff dir).1 hc)
  have hn' : ¬(s.filter
      (fun e => likeMatch ("/" ++ joinSlash (sanitizePath dir) ++ "/%") e.name)).length = 0 := hn
  simp only [deleteDirectoryFiles]
  rw [if_neg (by simp [hj]), if_neg (by simpa using hn')]

theorem flatten_map_chunks {α β : Type} (f : α → β) (l : List α) (P : Nat) :
    ∀ k : Nat, ((List.range k).map (fun i => ((l.drop (i * P)).take P).map f)).flatten
      = (l.take (k * P)).map f := by
  intro k
  induction k with
  | zero => simp
  | succ k ih =>
    rw [List.range_succ, List.map_append, List.flatten_append, ih]
    simp only [List.map_cons, List.map_nil, List.flatten_cons, List.flatten_nil,
      List.append_nil]
    rw [Nat.succ_mul, List.take_add, List.map_append]

theorem ceil_div_mul_ge (N P : Nat) (hP : 0 < P) : N ≤ P * ((N + P - 1) / P) := by
  have h1 := Nat.div_add_mod (N + P - 1) P
  have h2 : (N + P - 1) % P < P := Nat.mod_lt _ hP
  omega

theorem listFiles_page_files (s : Archive) (dir : List String) (P : Nat)
    (ob : OrderBy) (od : SortDir) (i : Nat) :
    (listFiles s dir P ((i : Int) + 1) ob od).files
      = (((sortedEntries s dir ob od).drop (i * P)).take P).map listedRow := by
  have hskip : pageSkip ((i : Int) + 1) P = i * P := by
    unfold pageSkip
    cases i with
    | zero => simp
    | succ j =>
      rw [if_neg (by push_cast; omega)]
      have ht : (((j + 1 : Nat) : Int) + 1 - 1).toNat = j + 1 := by omega
      rw [ht]
  show (((sortedEntries s dir ob od).drop (pageSkip ((i : Int) + 1) P)).take P).map listedRow
    = (((sortedEntries s dir ob od).drop (i * P)).take P).map listedRow
  rw [hskip]

/-! ### Claim theorems -/

/-- C8: `sanitizePath` is the pure total segment-wise function the
specification describes: it drops every segment that is empty after
trimming, rewrites each kept segment to its trimmed form with slashes,
backslashes and whitespace replaced by underscores, and preserves the
input order of the kept segments (shown by equivalence with the recursive
spec-worded model). -/
theorem c8_sanitizePath_matches_spec (l : List String) :
    sanitizePath l = sanitizeSpecModel l := by
  induction l with
  | nil => rfl
  | cons seg rest ih =>
    by_cases h : jsTrim seg = ""
    · rw [sanitizeSpecModel, if_pos h]
      have hstep : sanitizePath (seg :: rest) = sanitizePath rest := by
        unfold sanitizePath
        rw [List.filter_cons]
        simp [h]
      rw [hstep, ih]
    · rw [sanitizeSpecModel, if_neg h]
      have hstep : sanitizePath (seg :: rest)
          = (⟨(jsTrim seg).data.map sanitizeChar⟩ : String) :: sanitizePath rest := by
        unfold sanitizePath
        rw [List.filter_cons]
        simp [h]
      rw [hstep, ih]

/-- C9: the composed full key is `/<joined>/<fileName>`, and collapses to
`/<fileName>` exactly when sanitization left no segment (the joined
sanitized path is empty iff the sanitized segment list is empty, since
sanitized segments are never empty strings). -/
theorem c9_createFileNameWithPath_spec (dir : List String) (fileName : String) :
    createFileNameWithPath dir fileName =
      if sanitizePath dir = [] then "/" ++ fileName
      else "/" ++ joinSlash (sanitizePath dir) ++ "/" ++ fileName := by
  unfold createFileNameWithPath
  by_cases h : sanitizePath dir = []
  · rw [if_pos h]
    simp [h, joinSlash]
  · rw [if_neg h]
    have hne : joinSlash (sanitizePath dir) ≠ "" :=
      fun hc => h ((sanitizedJoin_empty_iff dir).1 hc)
    simp [hne]

/-- C4 counterexample: with empty sanitized directory segments, the scope
listFiles queries with is the literal pattern `//%`, not `%`; it fails to
match the key `/a.txt`, and listFiles over an archive holding only that
key reports zero files. -/
theorem c4_counterexample :
    listScope [] = "//%" ∧ listScope [] ≠ "%" ∧
    likeMatch (listScope []) "/a.txt" = false ∧
    (listFiles [⟨"/a.txt", 420, 0, 5, [1, 2, 3, 4, 5]⟩] [] 20 1 .name .asc).totalFiles = 0 :=
  ⟨by decide, by decide, by decide, by decide⟩

/-- C4 amended: only searchFiles maps empty sanitized segments to the
match-everything scope `%`; listFiles applies no empty special case and
always queries `/<joined>/%` (hence `//%` when the sanitized segments are
empty). For non-empty sanitized segments the two scopes agree. -/
theorem c4_scope_amended :
    (∀ dir : List String,
      searchScope dir = if sanitizePath dir = [] then "%" else listScope dir) ∧
    (∀ key : String, likeMatch (searchScope []) key = true) ∧
    (∀ dir : List String, listScope dir = "/" ++ joinSlash (sanitizePath dir) ++ "/%") := by
  refine ⟨?_, ?_, fun dir => rfl⟩
  · intro dir
    unfold searchScope listScope
    by_cases h : sanitizePath dir = []
    · rw [if_pos h]
      simp [h, joinSlash]
    · rw [if_neg h]
      have hne : joinSlash (sanitizePath dir) ≠ "" :=
        fun hc => h ((sanitizedJoin_empty_iff dir).1 hc)
      simp [hne]
  · intro key
    have h : searchScope [] = "%" := rfl
    rw [h]
    exact likeMatch_percent key

/-- C2: when the composed key is already present, storeFile reports
`FileAlreadyExists` and the archive — in particular the existing row — is
left exactly as it was; nothing is overwritten. -/
theorem c2_storeFile_never_overwrites (compress : List Nat → List Nat) (s : Archive)
    (dir : List String) (fileName : String) (file : List Nat) (mt : Int)
    (h : fileExists s (createFileNameWithPath dir fileName) = true) :
    (storeFile compress s dir fileName file mt).1 = .error .FileAlreadyExists ∧
    (storeFile compress s dir fileName file mt).2 = s := by
  constructor <;> simp [storeFile, h]

/-- C2 witness: a concrete archive already holding `/d/f`. -/
theorem c2_witness :
    fileExists [⟨"/d/f", 420, 0, 1, [9]⟩] (createFileNameWithPath ["d"] "f") = true ∧
    ((storeFile (fun x => x) [⟨"/d/f", 420, 0, 1, [9]⟩] ["d"] "f" [1, 2] 5).1
        = .error .FileAlreadyExists ∧
      (storeFile (fun x => x) [⟨"/d/f", 420, 0, 1, [9]⟩] ["d"] "f" [1, 2] 5).2
        = [⟨"/d/f", 420, 0, 1, [9]⟩]) :=
  ⟨by decide,
    c2_storeFile_never_overwrites (fun x => x) [⟨"/d/f", 420, 0, 1, [9]⟩]
      ["d"] "f" [1, 2] 5 (by decide)⟩

/-- C10: deleteAllFiles reports success unconditionally — it has no
"no files" failure — and leaves the archive with zero rows. -/
theorem c10_deleteAllFiles_always_succeeds (s : Archive) :
    (deleteAllFiles s).1 = .ok () ∧
    (deleteAllFiles s).1 ≠ .error .NoFilesToDelete ∧
    (deleteAllFiles s).2.length = 0 :=
  ⟨rfl, by simp [deleteAllFiles], rfl⟩

/-- C6 (divergence witness): storing a file with mtime 0 and reading it
back yields `mtime` as the text `1970-01-01 00:00:00` — the value of the
datetime() SQL call the SELECT aliases over `mtime` — not the stored
integer 0; listFiles renders the column the same way. -/
theorem c6_mtime_returned_as_datetime_text :
    (retrieveFile (fun d _ => d) (storeFile (fun x => x) [] ["d"] "f" [7] 0).2 ["d"] "f"
      = .ok ⟨"/d/f", 420, "1970-01-01 00:00:00", [7], 1⟩) ∧
    (listFiles (storeFile (fun x => x) [] ["d"] "f" [7] 0).2 ["d"] 20 1 .name .asc).files
      = [⟨"/d/f", 420, "1970-01-01 00:00:00", 1⟩] :=
  ⟨rfl, by decide⟩

/-- C7: deleteDirectoryFiles fails with DirectoryAlreadyEmpty and leaves
the archive untouched exactly when sanitization leaves no directory
segment or no key matches the directory scope; in every other case it
succeeds.  In particular empty segments never wipe the archive. -/
theorem c7_deleteDirectoryFiles_spec (s : Archive) (dir : List String) :
    (((deleteDirectoryFiles s dir).1 = .error .DirectoryAlreadyEmpty ∧
        (deleteDirectoryFiles s dir).2 = s)
      ↔ (sanitizePath dir = [] ∨
          (s.filter (fun e => likeMatch (listScope dir) e.name)).length = 0)) ∧
    ((deleteDirectoryFiles s dir).1 = .ok ()
      ↔ ¬(sanitizePath dir = [] ∨
          (s.filter (fun e => likeMatch (listScope dir) e.name)).length = 0)) := by
  by_cases hs : sanitizePath dir = []
  · rw [deleteDirectoryFiles_of_empty s dir hs]
    simp [hs]
  · by_cases hn : (s.filter (fun e => likeMatch (listScope dir) e.name)).length = 0
    · rw [deleteDirectoryFiles_fst_no_match s dir hs hn]
      simp [hs, hn]
    · have hok := deleteDirectoryFiles_fst_match s dir hs hn
      rw [hok]
      simp [hs, hn]

/-- C1: if storeFile succeeds, an immediate retrieveFile with the same
directory and name succeeds and returns content byte-identical to the
stored buffer with sz equal to its length — under the hypothesis that the
external uncompress inverts compress. -/
theorem c1_store_retrieve_roundtrip (compress : List Nat → List Nat)
    (uncompress : List Nat → Nat → List Nat)
    (hinv : ∀ b : List Nat, uncompress (compress b) b.length = b)
    (s : Archive) (dir : List String) (fileName : String) (b : List Nat) (mt : Int)
    (hok : (storeFile compress s dir fileName b mt).1.isOk = true) :
    (retrieveFile uncompress (storeFile compress s dir fileName b mt).2 dir fileName).map
        (fun f => f.data) = .ok b ∧
    (retrieveFile uncompress (storeFile compress s dir fileName b mt).2 dir fileName).map
        (fun f => f.sz) = .ok b.length := by
  by_cases hex : fileExists s (createFileNameWithPath dir fileName) = true
  · exfalso
    simp [storeFile, hex, Except.isOk, Except.toBool] at hok
  · have hexf : fileExists s (createFileNameWithPath dir fileName) = false := by
      simpa using hex
    have h2 : (storeFile compress s dir fileName b mt).2
        = s ++ [⟨createFileNameWithPath dir fileName, 420, mt, b.length, compress b⟩] := by
      simp [storeFile, hexf]
    rw [h2]
    have hnone : s.find? (fun e => e.name == createFileNameWithPath dir fileName) = none := by
      unfold fileExists at hexf
      exact Option.not_isSome_iff_eq_none.mp (by simp [hexf])
    constructor <;> (simp [retrieveFile, List.find?_append, hnone, hinv b]; rfl)

/-- C1 witness: identity compression, an empty archive and a three-byte
buffer. -/
theorem c1_witness :
    (storeFile (fun x => x) [] ["a"] "f" [1, 2, 3] 0).1.isOk = true ∧
    ((retrieveFile (fun d _ => d)
          (storeFile (fun x => x) [] ["a"] "f" [1, 2, 3] 0).2 ["a"] "f").map
        (fun f => f.data) = .ok [1, 2, 3] ∧
      (retrieveFile (fun d _ => d)
          (storeFile (fun x => x) [] ["a"] "f" [1, 2, 3] 0).2 ["a"] "f").map
        (fun f => f.sz) = .ok [1, 2, 3].length) :=
  ⟨by decide,
    c1_store_retrieve_roundtrip (fun x => x) (fun d _ => d) (fun _ => rfl)
      [] ["a"] "f" [1, 2, 3] 0 (by decide)⟩

/-- C5: with an entry at key `/ab/x` in the archive, deleting directory
`a` keeps that entry, every entry it removes has a key starting with
`/a/`, and no listFiles page for directory `a` (any page size, page
number, sort column or direction) contains a row named `/ab/x`. -/
theorem c5_adjacent_dir_isolation (s : Archive) (e : SQLarFile) (P : Nat) (pg : Int)
    (ob : OrderBy) (od : SortDir) (hmem : e ∈ s) (hname : e.name = "/ab/x") :
    e ∈ (deleteDirectoryFiles s ["a"]).2 ∧
    (∀ d ∈ s, d ∉ (deleteDirectoryFiles s ["a"]).2 →
      leadsWith ['/', 'a', '/'] d.name.data = true) ∧
    (∀ row ∈ (listFiles s ["a"] P pg ob od).files, row.name ≠ "/ab/x") := by
  have hsan : sanitizePath ["a"] ≠ [] := by decide
  have hscope : listScope ["a"] = "/a/%" := by decide
  have hsnd := deleteDirectoryFiles_snd s ["a"] hsan
  refine ⟨?_, ?_, ?_⟩
  · rw [hsnd]
    refine List.mem_filter.2 ⟨hmem, ?_⟩
    simp only [hname, hscope]
    decide
  · intro d hd hnot
    rw [hsnd] at hnot
    have hlike : likeMatch (listScope ["a"]) d.name = true := by
      by_contra hl
      have hl' : (!likeMatch (listScope ["a"]) d.name) = true := by
        simp [Bool.not_eq_true] at hl
        simp [hl]
      exact hnot (List.mem_filter.2 ⟨hd, hl'⟩)
    rw [hscope] at hlike
    exact likeMatch_under_a _ hlike
  · intro row hrow
    have hfiles : (listFiles s ["a"] P pg ob od).files
        = (((sortedEntries s ["a"] ob od).drop (pageSkip pg P)).take P).map listedRow := rfl
    rw [hfiles] at hrow
    obtain ⟨en, hen, hrowe⟩ := List.mem_map.1 hrow
    have hen1 : en ∈ sortedEntries s ["a"] ob od :=
      List.drop_subset _ _ (List.take_subset _ _ hen)
    have hen2 : en ∈ matchingEntries s ["a"] :=
      (List.perm_insertionSort (sortRel ob od) (matchingEntries s ["a"])).mem_iff.mp hen1
    have hlike : likeMatch (listScope ["a"]) en.name = true :=
      (List.mem_filter.1 hen2).2
    rw [hscope] at hlike
    have hlead := likeMatch_under_a _ hlike
    have hnamen : row.name = en.name := by
      rw [← hrowe]
      rfl
    intro hcontra
    have : en.name = "/ab/x" := hnamen.symm.trans hcontra
    rw [this] at hlead
    exact absurd hlead (by decide)

/-- C5 witness: the two-entry archive holding `/a/x` and `/ab/x`. -/
theorem c5_witness :
    (⟨"/ab/x", 420, 0, 1, [1]⟩ : SQLarFile)
      ∈ (deleteDirectoryFiles [⟨"/a/x", 420, 0, 1, [1]⟩, ⟨"/ab/x", 420, 0, 1, [1]⟩] ["a"]).2 :=
  (c5_adjacent_dir_isolation [⟨"/a/x", 420, 0, 1, [1]⟩, ⟨"/ab/x", 420, 0, 1, [1]⟩]
    ⟨"/ab/x", 420, 0, 1, [1]⟩ 20 1 .name .asc (by decide) rfl).1

/-- C3: for page size P > 0, the pages 1..ceil(N/P) of listFiles
concatenate to exactly the sorted row list of the N scope-matching
entries (so their union covers each entry exactly once), that list is a
permutation of the matching entries sorted consistently with the
requested column and direction, every page reports totalFiles = N, page
numbers at most 1 read from offset 0, and page p reads from offset
(p-1)·P. -/
theorem c3_listFiles_pagination (s : Archive) (dir : List String) (P : Nat)
    (ob : OrderBy) (od : SortDir) (hP : 0 < P) :
    ((((List.range (((matchingEntries s dir).length + P - 1) / P)).map
        (fun i : Nat => (listFiles s dir P ((i : Int) + 1) ob od).files)).flatten
      = (sortedEntries s dir ob od).map listedRow) ∧
    ((((List.range (((matchingEntries s dir).length + P - 1) / P)).map
        (fun i : Nat => (listFiles s dir P ((i : Int) + 1) ob od).files)).flatten).Perm
      ((matchingEntries s dir).map listedRow)) ∧
    List.Sorted (sortRel ob od) (sortedEntries s dir ob od) ∧
    (∀ pg : Int, (listFiles s dir P pg ob od).totalFiles = (matchingEntries s dir).length) ∧
    (∀ pg : Int, pg ≤ 1 → (listFiles s dir P pg ob od).files
      = ((sortedEntries s dir ob od).take P).map listedRow) ∧
    (∀ pg : Nat, 1 ≤ pg → (listFiles s dir P (pg : Int) ob od).files
      = (((sortedEntries s dir ob od).drop ((pg - 1) * P)).take P).map listedRow)) := by
  have hperm : (sortedEntries s dir ob od).Perm (matchingEntries s dir) :=
    List.perm_insertionSort _ _
  have hlen : (sortedEntries s dir ob od).length = (matchingEntries s dir).length :=
    hperm.length_eq
  have hmain : (((List.range (((matchingEntries s dir).length + P - 1) / P)).map
      (fun i : Nat => (listFiles s dir P ((i : Int) + 1) ob od).files)).flatten
      = (sortedEntries s dir ob od).map listedRow) := by
    simp only [listFiles_page_files s dir P ob od]
    rw [flatten_map_chunks listedRow (sortedEntries s dir ob od) P]
    rw [List.take_of_length_le]
    rw [hlen, Nat.mul_comm]
    exact ceil_div_mul_ge _ _ hP
  refine ⟨hmain, ?_, ?_, fun pg => rfl, ?_, ?_⟩
  · rw [hmain]
    exact hperm.map listedRow
  · exact List.sorted_insertionSort _ _
  · intro pg hpg
    have h0 : pageSkip pg P = 0 := by
      unfold pageSkip
      rw [if_pos hpg]
    show (((sortedEntries s dir ob od).drop (pageSkip pg P)).take P).map listedRow = _
    rw [h0, List.drop_zero]
  · intro pg hpg
    have hsk : pageSkip (pg : Int) P = (pg - 1) * P := by
      unfold pageSkip
      rcases Nat.eq_or_lt_of_le hpg with h | h
      · rw [if_pos (by omega)]
        subst h
        simp
      · rw [if_neg (by omega)]
        have ht : ((pg : Int) - 1).toNat = pg - 1 := by omega
        rw [ht]
    show (((sortedEntries s dir ob od).drop (pageSkip (pg : Int) P)).take P).map listedRow = _
    rw [hsk]

/-- C3 witness: three entries under directory `a`, page size 2. -/
theorem c3_witness :
    0 < 2 ∧
    (((List.range (((matchingEntries
          [⟨"/a/x", 420, 2, 1, [1]⟩, ⟨"/a/y", 420, 1, 1, [1]⟩, ⟨"/a/z", 420, 3, 1, [1]⟩]
          ["a"]).length + 2 - 1) / 2)).map
        (fun i : Nat => (listFiles
          [⟨"/a/x", 420, 2, 1, [1]⟩, ⟨"/a/y", 420, 1, 1, [1]⟩, ⟨"/a/z", 420, 3, 1, [1]⟩]
          ["a"] 2 ((i : Int) + 1) .mtime .asc).files)).flatten
      = (sortedEntries
          [⟨"/a/x", 420, 2, 1, [1]⟩, ⟨"/a/y", 420, 1, 1, [1]⟩, ⟨"/a/z", 420, 3, 1, [1]⟩]
          ["a"] .mtime .asc).map listedRow) :=
  ⟨by decide,
    (c3_listFiles_pagination
      [⟨"/a/x", 420, 2, 1, [1]⟩, ⟨"/a/y", 420, 1, 1, [1]⟩, ⟨"/a/z", 420, 3, 1, [1]⟩]
      ["a"] 2 .mtime .asc (by decide)).1⟩
example : createFileNameWithPath [] "f.txt" = "/f.txt" := by decide
example : createFileNameWithPath ["root", "pdf"] "f.txt" = "/root/pdf/f.txt" := by decide
example : likeMatch "/a/%" "/a/x" = true := by decide
example : likeMatch "/a/%" "/ab/x" = false := by decide
example : likeMatch "%" "/anything" = true := by decide
example : likeMatch "//%" "/a.txt" = false := by decide

end SqlarVault
